import Mathlib

/-!
Verification of the vizmap repository (felixatsma/vizmap) against its
natural-language specification.

The development shallowly embeds the parts of the code that the claims
touch:

* `src/vizmap/selection.py` — the selection engine (rectangle, polygon and
  circle masks, the haversine `distance` helper, and the `find_selection`
  dispatcher).  Coordinates are embedded as rationals, numpy boolean masks
  as `List (List Bool)` (row major, `true` = masked out / excluded).
  Python exceptions are embedded with `Except PyErr`.
* `src/vizmap/layer.py` — the frame cache and prefetch logic of
  `RasterLayer.update_frame` / `RasterLayer.buffer_frames`, embedded as a
  state machine over `LayerState`, and the mask combination of
  `get_selection` (raster and wind variants).
* `src/vizmap/processing.py` — the raster normalization pipeline
  (embedded over an IEEE-style value domain `PyFloat` of rationals
  extended with NaN and signed infinities) and the `calc_arrow` geometry
  (embedded over the reals).
-/

/-- Python exceptions that the embedded code can raise. -/
inductive PyErr where
  | typeError
  | indexError
deriving DecidableEq, Repr

/-- Row-major boolean mask, `true` = excluded (masked out), mirroring the
numpy arrays produced by the selection engine. -/
abbrev Mask := List (List Bool)

/-- Reads entry `(r, c)` of a mask; out-of-range reads default to `true`
(excluded), which is only used to state theorems, never by the embedded
code itself. -/
def mget (m : Mask) (r c : ℕ) : Bool :=
  ((m[r]?.getD [])[c]?).getD true

/-- Model of `np.full((rows, cols), True)` (selection.py lines 24, 51, 74). -/
def np_full (rows cols : ℕ) : Mask :=
  List.replicate rows (List.replicate cols true)

/-- Model of `np.flip` on a 1-D coordinate array. -/
def np_flip (l : List ℚ) : List ℚ := l.reverse

/-- Model of `np.searchsorted(a, v)` (left side) for a sorted ascending
array: the insertion index, i.e. the number of entries strictly below `v`.
The code only ever calls it on sorted axes (`long` ascending, `np.flip(lat)`
ascending), matching numpy's contract. -/
def searchsorted (a : List ℚ) (v : ℚ) : ℕ :=
  (a.filter (fun x => x < v)).length

/-- Python `range(lo, hi)` over (possibly negative) integers. -/
def intRange (lo hi : ℤ) : List ℤ :=
  (List.range (hi - lo).toNat).map (fun k : ℕ => lo + (k : ℤ))

/-- Python index normalization for a 1-D container of length `len`:
negative indices wrap once from the end; anything still out of bounds is an
`IndexError` (`none`). -/
def pyNorm (len : ℕ) (i : ℤ) : Option ℕ :=
  let j := if i < 0 then (len : ℤ) + i else i
  if 0 ≤ j ∧ j < (len : ℤ) then some j.toNat else none

/-- Python slice-bound normalization for a container of length `len`:
negative bounds wrap from the end and everything is clamped into
`[0, len]` (slices never raise). -/
def sliceNorm (len : ℕ) (i : ℤ) : ℕ :=
  if i < 0 then (max 0 ((len : ℤ) + i)).toNat else min i.toNat len

/-- Applies `f` to every entry of a list together with its index
(starting at `i0`). -/
def idxGo (f : ℕ → α → α) : ℕ → List α → List α
  | _, [] => []
  | i, a :: rest => f i a :: idxGo f (i + 1) rest

/-- Model of the numpy element assignment `mask[y, x] = False` at
already-normalized indices. -/
def msetFalse (m : Mask) (yi xi : ℕ) : Mask :=
  idxGo (fun r row =>
    if r = yi then idxGo (fun c b => if c = xi then false else b) 0 row
    else row) 0 m

/-- Model of the numpy slice assignment
`mask[y_lo:y_hi, x_lo:x_hi] = False` (selection.py line 53). -/
def sliceAssignFalse (m : Mask) (y_lo y_hi x_lo x_hi : ℤ) : Mask :=
  idxGo (fun r row =>
    if sliceNorm m.length y_lo ≤ r ∧ r < sliceNorm m.length y_hi then
      idxGo (fun c b =>
        if sliceNorm row.length x_lo ≤ c ∧ c < sliceNorm row.length x_hi then
          false
        else b) 0 row
    else row) 0 m

/-- Bounding box `(xmin, xmax, ymin, ymax)` of a list of polygon points. -/
structure Bounds4 where
  xmin : ℚ
  xmax : ℚ
  ymin : ℚ
  ymax : ℚ
deriving DecidableEq, Repr

/-- Embeds `get_poly_bounds` (selection.py lines 91-96): coordinatewise
`np.min` / `np.max` over the polygon points.  `np.min` of an empty array
raises in Python; the code never calls it on an empty ring, and the empty
case here returns a junk value. -/
def get_poly_bounds (pts : List (ℚ × ℚ)) : Bounds4 :=
  match pts with
  | [] => ⟨0, 0, 0, 0⟩
  | p :: ps =>
    ⟨(ps.map Prod.fst).foldl min p.1,
     (ps.map Prod.fst).foldl max p.1,
     (ps.map Prod.snd).foldl min p.2,
     (ps.map Prod.snd).foldl max p.2⟩

/-- Embeds `is_rectangle` (selection.py lines 99-107): a 5-point closed
ring whose coordinates follow the axis-aligned rectangle pattern. -/
def is_rectangle (pts : List (ℚ × ℚ)) : Bool :=
  match pts with
  | [p0, p1, p2, p3, p4] =>
    p0.1 == p1.1 && p0.1 == p4.1 && p0.2 == p3.2 && p1.2 == p2.2 && p2.1 == p3.1
  | _ => false

/-- Model of `matplotlib.path.Path(coords).contains_point(pt)` (an external
collaborator of selection.py): the standard even-odd crossing-number
point-in-polygon test over the closed vertex list. -/
def contains_point (poly : List (ℚ × ℚ)) (pt : ℚ × ℚ) : Bool :=
  let edges := poly.zip poly.tail
  let crossings := edges.countP (fun e =>
    (decide (e.1.2 > pt.2) != decide (e.2.2 > pt.2)) &&
    decide (pt.1 < e.1.1 + (e.2.1 - e.1.1) * (pt.2 - e.1.2) / (e.2.2 - e.1.2)))
  crossings % 2 == 1

/-- The `x_lo` index bound shared by `find_selection_rectangle` and
`find_selection_polygon` (selection.py lines 19 and 46):
`np.searchsorted(long, xmin) - 1`. -/
def sel_x_lo (coords : List (ℚ × ℚ)) (long : List ℚ) : ℤ :=
  (searchsorted long (get_poly_bounds coords).xmin : ℤ) - 1

/-- The shared `x_hi` bound: `np.searchsorted(long, xmax) + 1`. -/
def sel_x_hi (coords : List (ℚ × ℚ)) (long : List ℚ) : ℤ :=
  (searchsorted long (get_poly_bounds coords).xmax : ℤ) + 1

/-- The shared `y_lo` bound:
`len(lat) - np.searchsorted(np.flip(lat), ymax) - 1`. -/
def sel_y_lo (coords : List (ℚ × ℚ)) (lat : List ℚ) : ℤ :=
  (lat.length : ℤ) - (searchsorted (np_flip lat) (get_poly_bounds coords).ymax : ℤ) - 1

/-- The shared `y_hi` bound:
`len(lat) - np.searchsorted(np.flip(lat), ymin) + 1`. -/
def sel_y_hi (coords : List (ℚ × ℚ)) (lat : List ℚ) : ℤ :=
  (lat.length : ℤ) - (searchsorted (np_flip lat) (get_poly_bounds coords).ymin : ℤ) + 1

/-- Embeds `find_selection_rectangle` (selection.py lines 34-55): an
all-`True` mask with the binary-searched, one-index-padded window set to
`False` by slice assignment. -/
def find_selection_rectangle (coords : List (ℚ × ℚ)) (lat long : List ℚ) : Mask :=
  sliceAssignFalse (np_full lat.length long.length)
    (sel_y_lo coords lat) (sel_y_hi coords lat)
    (sel_x_lo coords long) (sel_x_hi coords long)

/-- Embeds `find_selection_polygon` (selection.py lines 6-31): per-cell
point-in-polygon testing over the same padded index window.  Python raises
`IndexError` when a loop index falls outside the coordinate arrays (after
one negative wrap), which the embedding propagates through `Except`. -/
def find_selection_polygon (coords : List (ℚ × ℚ)) (lat long : List ℚ) :
    Except PyErr Mask :=
  (intRange (sel_y_lo coords lat) (sel_y_hi coords lat)).foldlM (fun mask y =>
    (intRange (sel_x_lo coords long) (sel_x_hi coords long)).foldlM (fun mask x =>
      match pyNorm long.length x, pyNorm lat.length y with
      | some xi, some yi =>
        if contains_point coords (long.getD xi 0, lat.getD yi 0) then
          Except.ok (msetFalse mask yi xi)
        else Except.ok mask
      | _, _ => Except.error PyErr.indexError) mask)
    (np_full lat.length long.length)

/-- Embeds `get_circle_y_bounds` (selection.py lines 84-88): the radius is
converted to a degree delta with the approximate 110 km-per-degree factor.
Returns `(ymin, ymax)`. -/
def get_circle_y_bounds (center : ℚ × ℚ) (radius : ℚ) : ℚ × ℚ :=
  (center.2 - radius / 110, center.2 + radius / 110)

/-- Embeds `distance` (selection.py lines 110-125).  The source computes
the haversine intermediates and then evaluates
`2 * asin(sqrt(a), sqrt(1-a))`; `math.asin` accepts exactly one argument,
so in Python this call raises `TypeError` for every input, before any
distance value is produced.  The numeric intermediates are therefore never
observable and the function is embedded as unconditionally raising. -/
def distance (origin destination : ℚ × ℚ) : Except PyErr ℚ :=
  Except.error PyErr.typeError

/-- Embeds `find_selection_circle` (selection.py lines 58-81): rows of the
latitude band are scanned and every column is tested with `distance`
(which raises, see `distance`). -/
def find_selection_circle (center : ℚ × ℚ) (radius : ℚ) (lat long : List ℚ) :
    Except PyErr Mask :=
  let b := get_circle_y_bounds center radius
  let y_lo : ℤ := (lat.length : ℤ) - (searchsorted (np_flip lat) b.2 : ℤ)
  let y_hi : ℤ := (lat.length : ℤ) - (searchsorted (np_flip lat) b.1 : ℤ) - 1
  (intRange y_lo y_hi).foldlM (fun mask y =>
    (List.range long.length).foldlM (fun mask x =>
      match pyNorm lat.length y with
      | some yi => do
        let d ← distance center (long.getD x 0, lat.getD yi 0)
        pure (if d < radius then msetFalse mask yi x else mask)
      | none => Except.error PyErr.indexError) mask)
    (np_full lat.length long.length)

/-- GeoJSON geometry of a user-drawn selection, as dispatched on by
`find_selection` via the `geometry.type` string: a `Point` (circle centre),
a `Polygon` (list of rings), or any other geometry type string. -/
inductive Geometry where
  | point (coords : ℚ × ℚ)
  | polygon (rings : List (List (ℚ × ℚ)))
  | other
deriving DecidableEq

/-- A user-drawn selection feature: its geometry together with the
`properties.style.radius` field (meters, only meaningful for circles). -/
structure Selection where
  geometry : Geometry
  radius : ℚ
deriving DecidableEq

/-- Embeds `find_selection` (selection.py lines 128-142): dispatch on the
geometry type.  A `Point` selection runs the circle finder with
`radius / 1000`; a `Polygon` takes ring 0 and dispatches on
`is_rectangle`; any other geometry type falls off the end of the function,
which in Python silently returns `None` (embedded as `Except.ok none`). -/
def find_selection (sel : Selection) (lat long : List ℚ) :
    Except PyErr (Option Mask) :=
  match sel.geometry with
  | Geometry.point c =>
    (find_selection_circle c (sel.radius / 1000) lat long).map some
  | Geometry.polygon rings =>
    match rings with
    | [] => Except.error PyErr.indexError
    | ring :: _ =>
      if is_rectangle ring then
        Except.ok (some (find_selection_rectangle ring lat long))
      else (find_selection_polygon ring lat long).map some
  | Geometry.other => Except.ok none

/-- Elementwise `mask & mask` on two boolean numpy arrays. -/
def zipAnd (a b : Mask) : Mask :=
  List.zipWith (fun ra rb => List.zipWith and ra rb) a b

/-- Embeds the Python expression `mask & other` inside `get_selection`
(layer.py line 112): both operands must be actual arrays; `None & array`
or `array & None` raises `TypeError`. -/
def pyAnd (a b : Option Mask) : Except PyErr (Option Mask) :=
  match a, b with
  | some x, some y => Except.ok (some (zipAnd x y))
  | _, _ => Except.error PyErr.typeError

/-- The argument of `get_selection`: either a single selection feature or
a sequence of them (the `isinstance(selection, list/tuple/ndarray)`
branch). -/
inductive SelInput where
  | one (s : Selection)
  | many (ss : List Selection)

/-- Embeds the mask computation of `RasterLayer.get_selection` /
`WindLayer.get_selection` (layer.py lines 107-115 and 271-280): a single
selection is looked up directly; a sequence starts from the first
selection's mask and combines the rest with `&`.  `selection[0]` on an
empty sequence raises `IndexError`. -/
def get_selection_mask (sel : SelInput) (lat long : List ℚ) :
    Except PyErr (Option Mask) :=
  match sel with
  | SelInput.one s => find_selection s lat long
  | SelInput.many [] => Except.error PyErr.indexError
  | SelInput.many (s0 :: rest) => do
    let m0 ← find_selection s0 lat long
    rest.foldlM (fun acc s => do
      let ms ← find_selection s lat long
      pyAnd acc ms) m0

/-- Model of `np.ma.array(data, mask=mask)`: the data together with an
optional mask (`mask=None` applies no masking). -/
structure MaskedArray (A : Type) where
  data : A
  mask : Option Mask
deriving DecidableEq

/-- Embeds `RasterLayer.get_selection` (layer.py lines 107-115): the mask
is computed from the selection(s) and applied to the current frame. -/
def raster_get_selection (frame : A) (sel : SelInput) (lat long : List ℚ) :
    Except PyErr (MaskedArray A) :=
  (get_selection_mask sel lat long).map (fun m => ⟨frame, m⟩)

/-- Embeds `WindLayer.get_selection` (layer.py lines 271-280): the mask is
computed once and the function returns the pair
`(np.ma.array(self.u[self.frame], mask), np.ma.array(self.u[self.frame], mask))`
— the source applies the mask to the `u` component in both positions and
never references `self.v`. -/
def wind_get_selection (u v : A) (sel : SelInput) (lat long : List ℚ) :
    Except PyErr (MaskedArray A × MaskedArray A) :=
  (get_selection_mask sel lat long).map (fun m => (⟨u, m⟩, ⟨u, m⟩))

/-! ## Frame cache and prefetch (layer.py) -/

/-- State of a `RasterLayer` as far as `update_frame` / `buffer_frames`
observe and mutate it: the current frame index, the frame cache (the `0`
sentinel of the source is embedded as `none`, a stored artifact as
`some a`), the displayed artifact `layer_obj.url`, the log of prefetch
requests `buffer_frames(start, n)` issued so far, and a count of the
synchronous reprojections (`process_frame` calls) performed to serve a
frame. -/
structure LayerState (A : Type) where
  frame : ℕ
  cache : List (Option A)
  url : A
  prefetchReqs : List (ℕ × ℕ)
  syncRenders : ℕ
deriving DecidableEq, Repr

/-- Completed effect of the worker-pool dispatch of `buffer_frames`
(layer.py lines 147-153) on the cache: every index in
`[start, start + n)` whose entry is absent is filled with the rendered
artifact for that index; already-present indices are skipped
(`if self.cache[start+i] != 0: continue`).  Indices beyond the end of the
cache perform no writes.  `render i` abstracts
`calc_frame(i, 'raster', data[i - start], bounds_img, transform, cmap)`,
a pure function of the frame index for a fixed layer. -/
def fillAbsent (render : ℕ → A) :
    List (Option A) → ℕ → ℕ → List (Option A)
  | cache, _, 0 => cache
  | cache, start, n + 1 =>
    fillAbsent render
      (match cache[start]? with
       | some none => cache.set start (some (render start))
       | _ => cache)
      (start + 1) n

/-- Embeds a call to `buffer_frames(start, n)` (layer.py lines 136-157):
the call is recorded in the prefetch-request log and its dispatched
workers eventually fill the absent cache entries of the range (the
`debounce` collaborator, whose code is outside this repository, only
delays and coalesces calls; this sequential embedding applies each
requested dispatch's completed effect directly, which is the strongest
case for the cache-invariant claims). -/
def buffer_frames (render : ℕ → A) (s : LayerState A) (start n : ℕ) :
    LayerState A :=
  { s with cache := fillAbsent render s.cache start n,
           prefetchReqs := s.prefetchReqs ++ [(start, n)] }

/-- Embeds `RasterLayer.update_frame(i)` (layer.py lines 118-133):
set `self.frame = i`; if `i % 10 == 0` request `buffer_frames(i+1, 40)`;
then serve from the cache if the entry is present, otherwise reproject
synchronously, display and store the result, and request
`buffer_frames(i+1, 50)`.  For `i` outside the cache Python would raise
`IndexError` at `self.cache[i]`; the claims only concern valid indices and
that case is embedded as a no-op tail. -/
def update_frame (render : ℕ → A) (s : LayerState A) (i : ℕ) : LayerState A :=
  let s1 := { s with frame := i }
  let s2 := if i % 10 = 0 then buffer_frames render s1 (i + 1) 40 else s1
  match s2.cache[i]? with
  | some (some a) => { s2 with url := a }
  | some none =>
    let img := render i
    let s3 := { s2 with url := img,
                        cache := s2.cache.set i (some img),
                        syncRenders := s2.syncRenders + 1 }
    buffer_frames render s3 (i + 1) 50
  | none => s2

/-! ## Raster normalization (processing.py) -/

/-- IEEE-style value domain for the numpy float arrays of the raster
pipeline: exact rationals extended with NaN and the signed infinities.
Rounding of finite arithmetic is not modelled; the normalization claims
are about the min/max/NaN structure, not rounding. -/
inductive PyFloat where
  | finite (q : ℚ)
  | nan
  | inf
  | ninf
deriving DecidableEq, Repr

/-- IEEE subtraction on the extended domain. -/
def pySub : PyFloat → PyFloat → PyFloat
  | PyFloat.finite a, PyFloat.finite b => PyFloat.finite (a - b)
  | PyFloat.nan, _ => PyFloat.nan
  | _, PyFloat.nan => PyFloat.nan
  | PyFloat.inf, PyFloat.inf => PyFloat.nan
  | PyFloat.inf, _ => PyFloat.inf
  | PyFloat.ninf, PyFloat.ninf => PyFloat.nan
  | PyFloat.ninf, _ => PyFloat.ninf
  | PyFloat.finite _, PyFloat.inf => PyFloat.ninf
  | PyFloat.finite _, PyFloat.ninf => PyFloat.inf

/-- IEEE division on the extended domain (the unsigned rational zero is
treated as `+0`). -/
def pyDiv : PyFloat → PyFloat → PyFloat
  | PyFloat.nan, _ => PyFloat.nan
  | _, PyFloat.nan => PyFloat.nan
  | PyFloat.inf, PyFloat.inf => PyFloat.nan
  | PyFloat.inf, PyFloat.ninf => PyFloat.nan
  | PyFloat.ninf, PyFloat.inf => PyFloat.nan
  | PyFloat.ninf, PyFloat.ninf => PyFloat.nan
  | PyFloat.inf, PyFloat.finite b =>
    if b < 0 then PyFloat.ninf else PyFloat.inf
  | PyFloat.ninf, PyFloat.finite b =>
    if b < 0 then PyFloat.inf else PyFloat.ninf
  | PyFloat.finite _, PyFloat.inf => PyFloat.finite 0
  | PyFloat.finite _, PyFloat.ninf => PyFloat.finite 0
  | PyFloat.finite a, PyFloat.finite b =>
    if b = 0 then
      if a = 0 then PyFloat.nan
      else if 0 < a then PyFloat.inf else PyFloat.ninf
    else PyFloat.finite (a / b)

/-- Model of `np.isfinite`. -/
def isFinite : PyFloat → Bool
  | PyFloat.finite _ => true
  | _ => false

/-- Model of `math.isnan` / the NaN test used by `nanmin`/`nanmax`. -/
def isNan : PyFloat → Bool
  | PyFloat.nan => true
  | _ => false

/-- Pairwise minimum ignoring NaN (numpy's `fmin` reduction underlying
`nanmin`); infinities participate in the ordering. -/
def pymin : PyFloat → PyFloat → PyFloat
  | PyFloat.nan, y => y
  | x, PyFloat.nan => x
  | PyFloat.ninf, _ => PyFloat.ninf
  | _, PyFloat.ninf => PyFloat.ninf
  | PyFloat.inf, y => y
  | x, PyFloat.inf => x
  | PyFloat.finite a, PyFloat.finite b => PyFloat.finite (min a b)

/-- Pairwise maximum ignoring NaN. -/
def pymax : PyFloat → PyFloat → PyFloat
  | PyFloat.nan, y => y
  | x, PyFloat.nan => x
  | PyFloat.inf, _ => PyFloat.inf
  | _, PyFloat.inf => PyFloat.inf
  | PyFloat.ninf, y => y
  | x, PyFloat.ninf => x
  | PyFloat.finite a, PyFloat.finite b => PyFloat.finite (max a b)

/-- Model of `np.nanmin`: minimum over the non-NaN entries (NaN when every
entry is NaN; numpy warns and returns NaN there, and raises on an empty
array, embedded as NaN as well since the claims never probe it). -/
def nanmin (l : List PyFloat) : PyFloat :=
  match l.filter (fun v => !(isNan v)) with
  | [] => PyFloat.nan
  | x :: xs => xs.foldl pymin x

/-- Model of `np.nanmax`. -/
def nanmax (l : List PyFloat) : PyFloat :=
  match l.filter (fun v => !(isNan v)) with
  | [] => PyFloat.nan
  | x :: xs => xs.foldl pymax x

/-- Embeds the normalization step of `process_frame_raster`
(processing.py lines 56-58) applied to the reprojected slice `dst`:

  `data_norm = dst - np.nanmin(dst)`
  `data_norm = data_norm / np.nanmax(data_norm)`
  `data_norm = np.where(np.isfinite(dst), data_norm, 0)`

The surrounding reprojection and PNG/color-palette encoding are external
collaborators (rasterio, matplotlib, PIL) and are not part of this
claim. -/
def normalize_slice (dst : List PyFloat) : List PyFloat :=
  let m := nanmin dst
  let shifted := dst.map (fun v => pySub v m)
  let mx := nanmax shifted
  let norm := shifted.map (fun v => pyDiv v mx)
  List.zipWith (fun d n => if isFinite d then n else PyFloat.finite 0) dst norm

/-- The rationals that occur as finite entries of a slice, in order. -/
def finiteQs (l : List PyFloat) : List ℚ :=
  l.filterMap (fun v => match v with
    | PyFloat.finite q => some q
    | _ => none)

/-- Minimum of a rational list (`none` when empty). -/
def qminFold (l : List ℚ) : Option ℚ :=
  match l with
  | [] => none
  | x :: xs => some (xs.foldl min x)

/-- Maximum of a rational list (`none` when empty). -/
def qmaxFold (l : List ℚ) : Option ℚ :=
  match l with
  | [] => none
  | x :: xs => some (xs.foldl max x)

/-! ## Arrow geometry (processing.py, calc_arrow) -/

/-- Model of `np.radians`. -/
noncomputable def np_radians (d : ℝ) : ℝ := d * (Real.pi / 180)

/-- Model of `np.arctan2 y x`: the argument of the complex number
`x + y i`, in `(-π, π]`. -/
noncomputable def arctan2 (y x : ℝ) : ℝ := Complex.arg ⟨x, y⟩

/-- Embeds `calc_arrow` (processing.py lines 174-214): the 5-point
line-string `[begin, end, head_l, end, head_r]` of one arrow glyph for
the sample `(u, v)` at grid position `(long, lat)`. -/
noncomputable def calc_arrow (u v long lat : ℝ) (autoscale : Bool) (scale : ℝ) :
    List (ℝ × ℝ) :=
  let angle := arctan2 v u
  let length := if autoscale then Real.sqrt |u * v| * scale else scale
  let head_scale : ℝ := 1 / 10
  let head_angle : ℝ := 50
  let head_angle_l := np_radians 270 - np_radians head_angle
  let head_angle_r := np_radians 270 + np_radians head_angle
  let dx := (length / 2) * Real.cos angle
  let dy := (length / 2) * Real.sin angle
  let bg := (long - dx, lat - dy)
  let en := (long + dx, lat + dy)
  let dx_head_l := (length * head_scale) * Real.cos (angle + head_angle_l)
  let dy_head_l := (length * head_scale) * Real.sin (angle + head_angle_l)
  let dx_head_r := (length * head_scale) * Real.cos (angle + head_angle_r)
  let dy_head_r := (length * head_scale) * Real.sin (angle + head_angle_r)
  let head_l := (en.1 + dx_head_l, en.2 + dy_head_l)
  let head_r := (en.1 - dx_head_r, en.2 - dy_head_r)
  [bg, en, head_l, en, head_r]

theorem vmh_getElem?_set_ne {α : Type _} (l : List α) (i j : ℕ) (a : α)
    (h : i ≠ j) : (l.set i a)[j]? = l[j]? :=
  List.getElem?_set_ne h

theorem vmh_getElem?_set_self {α : Type _} (l : List α) (i : ℕ) (a : α)
    (h : i < l.length) : (l.set i a)[i]? = some a :=
  List.getElem?_set_self h

theorem vmh_idxGo_getElem? {α : Type _} (f : ℕ → α → α) (l : List α) (i j : ℕ) :
    (idxGo f i l)[j]? = (l[j]?).map (fun a => f (i + j) a) := by
  induction l generalizing i j with
  | nil => rfl
  | cons x xs ih =>
    cases j with
    | zero => simp [idxGo]
    | succ j =>
      have h : i + (j + 1) = (i + 1) + j := by omega
      simp only [idxGo, List.getElem?_cons_succ, h]
      exact ih (i + 1) j

theorem vmh_idxGo_length {α : Type _} (f : ℕ → α → α) (l : List α) (i : ℕ) :
    (idxGo f i l).length = l.length := by
  induction l generalizing i with
  | nil => rfl
  | cons x xs ih => simp [idxGo, ih]

theorem vmh_intRange_mem (lo hi y : ℤ) :
    y ∈ intRange lo hi ↔ lo ≤ y ∧ y < hi := by
  unfold intRange
  simp only [List.mem_map, List.mem_range]
  constructor
  · rintro ⟨k, hk, rfl⟩
    omega
  · rintro ⟨h1, h2⟩
    exact ⟨(y - lo).toNat, by omega, by omega⟩

theorem vmh_mget_np_full (R C r c : ℕ) : mget (np_full R C) r c = true := by
  unfold mget np_full
  rcases h : (List.replicate R (List.replicate C true))[r]? with _ | row
  · simp [h]
  · have hrow : row = List.replicate C true :=
      List.eq_of_mem_replicate (List.getElem?_mem h)
    subst hrow
    rcases hc : (List.replicate C true)[c]? with _ | b
    · simp [h, hc]
    · have hb : b = true := List.eq_of_mem_replicate (List.getElem?_mem hc)
      simp [h, hc, hb]

theorem vmh_mget_msetFalse_ne (m : Mask) (yi xi r c : ℕ)
    (h : ¬(r = yi ∧ c = xi)) :
    mget (msetFalse m yi xi) r c = mget m r c := by
  unfold mget msetFalse
  rw [vmh_idxGo_getElem?]
  rcases hr : m[r]? with _ | row
  · simp
  · simp only [Option.map_some', Option.getD_some, Nat.zero_add]
    by_cases hry : r = yi
    · rw [if_pos hry, vmh_idxGo_getElem?]
      have hcx : c ≠ xi := fun hc => h ⟨hry, hc⟩
      rcases hc : row[c]? with _ | b
      · simp
      · simp [if_neg hcx]
    · rw [if_neg hry]

theorem vmh_mget_msetFalse (m : Mask) (yi xi r c : ℕ)
    (h : mget (msetFalse m yi xi) r c = false) :
    mget m r c = false ∨ (r = yi ∧ c = xi) := by
  by_cases hx : r = yi ∧ c = xi
  · exact Or.inr hx
  · rw [vmh_mget_msetFalse_ne m yi xi r c hx] at h
    exact Or.inl h

theorem vmh_foldlM_false {ι : Type _} (step : Mask → ι → Except PyErr Mask)
    (Q : ι → ℕ → ℕ → Prop)
    (hstep : ∀ m y m', step m y = Except.ok m' →
      ∀ r c, mget m' r c = false → mget m r c = false ∨ Q y r c)
    (ys : List ι) :
    ∀ (init res : Mask), List.foldlM step init ys = Except.ok res →
      ∀ r c, mget res r c = false →
        mget init r c = false ∨ ∃ y ∈ ys, Q y r c := by
  induction ys with
  | nil =>
    intro init res hfold r c hres
    simp only [List.foldlM_nil] at hfold
    cases hfold
    exact Or.inl hres
  | cons y ys ih =>
    intro init res hfold r c hres
    simp only [List.foldlM_cons] at hfold
    rcases hstep1 : step init y with e | m1 <;> rw [hstep1] at hfold
    · exact absurd hfold (by simp [Bind.bind, Except.bind])
    · have hfold' : List.foldlM step m1 ys = Except.ok res := by
        simpa [Bind.bind, Except.bind] using hfold
      rcases ih m1 res hfold' r c hres with h1 | ⟨y', hy', hq⟩
      · rcases hstep init y m1 hstep1 r c h1 with h2 | hq
        · exact Or.inl h2
        · exact Or.inr ⟨y, List.mem_cons_self y ys, hq⟩
      · exact Or.inr ⟨y', List.mem_cons_of_mem y hy', hq⟩

theorem vmh_foldlM_ok {ι β : Type _} (step : β → ι → Except PyErr β)
    (l : List ι) (hstep : ∀ b y, y ∈ l → ∃ b', step b y = Except.ok b') :
    ∀ init, ∃ res, List.foldlM step init l = Except.ok res := by
  induction l with
  | nil => intro init; exact ⟨init, rfl⟩
  | cons y ys ih =>
    intro init
    rcases hstep init y (List.mem_cons_self y ys) with ⟨b1, hb1⟩
    rcases ih (fun b y hy => hstep b y (List.mem_cons_of_mem _ hy)) b1 with ⟨res, hres⟩
    exact ⟨res, by simp [List.foldlM_cons, hb1, Bind.bind, Except.bind, hres]⟩

theorem vmh_foldlM_pres {ι β : Type _} (step : β → ι → Except PyErr β)
    (P : β → Prop) (l : List ι)
    (hstep : ∀ b y b', y ∈ l → step b y = Except.ok b' → P b → P b') :
    ∀ init res, P init → List.foldlM step init l = Except.ok res → P res := by
  induction l with
  | nil =>
    intro init res hP hfold
    simp only [List.foldlM_nil] at hfold
    cases hfold
    exact hP
  | cons y ys ih =>
    intro init res hP hfold
    simp only [List.foldlM_cons] at hfold
    rcases h1 : step init y with e | b1 <;> rw [h1] at hfold
    · exact absurd hfold (by simp [Bind.bind, Except.bind])
    · have hfold' : List.foldlM step b1 ys = Except.ok res := by
        simpa [Bind.bind, Except.bind] using hfold
      exact ih (fun b y' b' hy' => hstep b y' b' (List.mem_cons_of_mem _ hy'))
        b1 res (hstep init y b1 (List.mem_cons_self y ys) h1 hP) hfold'

theorem vmh_fillAbsent_length {A : Type} (render : ℕ → A)
    (cache : List (Option A)) (start n : ℕ) :
    (fillAbsent render cache start n).length = cache.length := by
  induction n generalizing cache start with
  | zero => rfl
  | succ n ih =>
    rw [fillAbsent]
    rcases h : cache[start]? with _ | x
    · simpa [h] using ih _ _
    · cases x with
      | none => simp only [h]; rw [ih, List.length_set]
      | some a => simpa [h] using ih _ _

theorem vmh_fillAbsent_lt {A : Type} (render : ℕ → A)
    (cache : List (Option A)) (start n j : ℕ) (h : j < start) :
    (fillAbsent render cache start n)[j]? = cache[j]? := by
  induction n generalizing cache start with
  | zero => rfl
  | succ n ih =>
    rw [fillAbsent]
    rcases hc : cache[start]? with _ | x
    · simpa [hc] using ih cache (start + 1) (by omega)
    · cases x with
      | none =>
        simp only [hc]
        rw [ih _ (start + 1) (by omega)]
        exact vmh_getElem?_set_ne _ _ _ _ (by omega)
      | some a => simpa [hc] using ih cache (start + 1) (by omega)

theorem vmh_fillAbsent_present {A : Type} (render : ℕ → A)
    (cache : List (Option A)) (start n j : ℕ) (a : A)
    (h : cache[j]? = some (some a)) :
    (fillAbsent render cache start n)[j]? = some (some a) := by
  induction n generalizing cache start with
  | zero => exact h
  | succ n ih =>
    rw [fillAbsent]
    rcases hc : cache[start]? with _ | x
    · exact ih cache (start + 1) h
    · cases x with
      | none =>
        simp only [hc]
        apply ih _ (start + 1)
        by_cases hj : start = j
        · rw [hj] at hc
          rw [hc] at h
          cases h
        · rw [vmh_getElem?_set_ne _ _ _ _ hj]
          exact h
      | some b => exact ih cache (start + 1) h

theorem vmh_getElem?_some_lt {α : Type _} (l : List α) (i : ℕ) (x : α)
    (h : l[i]? = some x) : i < l.length := by
  by_contra hge
  rw [List.getElem?_eq_none (by omega)] at h
  cases h


attribute [local semireducible] Rat.mul Rat.inv Rat.add Rat.sub Nat.gcd

set_option maxRecDepth 16000

instance {ε α : Type _} [DecidableEq ε] [DecidableEq α] :
    DecidableEq (Except ε α) := fun x y =>
  match x, y with
  | Except.error e, Except.error f =>
    if h : e = f then isTrue (by rw [h]) else
      isFalse (by intro hh; cases hh; exact h rfl)
  | Except.ok a, Except.ok b =>
    if h : a = b then isTrue (by rw [h]) else
      isFalse (by intro hh; cases hh; exact h rfl)
  | Except.error _, Except.ok _ => isFalse (by intro hh; cases hh)
  | Except.ok _, Except.error _ => isFalse (by intro hh; cases hh)


theorem vmh_update_hit {A : Type} (render : ℕ → A) (s : LayerState A)
    (i : ℕ) (a : A) (hv : s.cache[i]? = some (some a)) :
    update_frame render s i =
      { frame := i,
        cache := if i % 10 = 0 then fillAbsent render s.cache (i + 1) 40 else s.cache,
        url := a,
        prefetchReqs := s.prefetchReqs ++ (if i % 10 = 0 then [(i + 1, 40)] else []),
        syncRenders := s.syncRenders } := by
  unfold update_frame
  by_cases h10 : i % 10 = 0
  · simp only [if_pos h10, buffer_frames]
    rw [vmh_fillAbsent_present _ _ _ _ _ _ hv]
  · simp only [if_neg h10, buffer_frames]
    rw [hv]
    simp

theorem vmh_update_miss {A : Type} (render : ℕ → A) (s : LayerState A)
    (i : ℕ) (hv : s.cache[i]? = some none) :
    update_frame render s i =
      { frame := i,
        cache := fillAbsent render
          ((if i % 10 = 0 then fillAbsent render s.cache (i + 1) 40 else s.cache).set
            i (some (render i))) (i + 1) 50,
        url := render i,
        prefetchReqs := (s.prefetchReqs ++ (if i % 10 = 0 then [(i + 1, 40)] else [])) ++
          [(i + 1, 50)],
        syncRenders := s.syncRenders + 1 } := by
  unfold update_frame
  by_cases h10 : i % 10 = 0
  · simp only [if_pos h10, buffer_frames]
    rw [vmh_fillAbsent_lt _ _ _ _ _ (by omega), hv]
  · simp only [if_neg h10, buffer_frames]
    rw [hv]
    simp

theorem vmh_update_oob {A : Type} (render : ℕ → A) (s : LayerState A)
    (i : ℕ) (hv : s.cache[i]? = none) :
    update_frame render s i =
      { frame := i,
        cache := if i % 10 = 0 then fillAbsent render s.cache (i + 1) 40 else s.cache,
        url := s.url,
        prefetchReqs := s.prefetchReqs ++ (if i % 10 = 0 then [(i + 1, 40)] else []),
        syncRenders := s.syncRenders } := by
  have hlen : s.cache.length ≤ i := by
    rw [List.getElem?_eq_none_iff] at hv
    exact hv
  unfold update_frame
  by_cases h10 : i % 10 = 0
  · simp only [if_pos h10, buffer_frames]
    rw [List.getElem?_eq_none (by rw [vmh_fillAbsent_length]; exact hlen)]
  · simp only [if_neg h10, buffer_frames]
    rw [hv]
    simp

theorem vmh_update_hit_cache {A : Type} (render : ℕ → A) (s : LayerState A)
    (i : ℕ) (a : A) (hv : s.cache[i]? = some (some a)) :
    (update_frame render s i).cache =
      if i % 10 = 0 then fillAbsent render s.cache (i + 1) 40 else s.cache :=
  by rw [vmh_update_hit render s i a hv]

theorem vmh_update_hit_url {A : Type} (render : ℕ → A) (s : LayerState A)
    (i : ℕ) (a : A) (hv : s.cache[i]? = some (some a)) :
    (update_frame render s i).url = a :=
  by rw [vmh_update_hit render s i a hv]

theorem vmh_update_hit_sync {A : Type} (render : ℕ → A) (s : LayerState A)
    (i : ℕ) (a : A) (hv : s.cache[i]? = some (some a)) :
    (update_frame render s i).syncRenders = s.syncRenders :=
  by rw [vmh_update_hit render s i a hv]

theorem vmh_update_hit_prefetch {A : Type} (render : ℕ → A) (s : LayerState A)
    (i : ℕ) (a : A) (hv : s.cache[i]? = some (some a)) :
    (update_frame render s i).prefetchReqs =
      s.prefetchReqs ++ (if i % 10 = 0 then [(i + 1, 40)] else []) :=
  by rw [vmh_update_hit render s i a hv]

theorem vmh_update_miss_cache {A : Type} (render : ℕ → A) (s : LayerState A)
    (i : ℕ) (hv : s.cache[i]? = some none) :
    (update_frame render s i).cache =
      fillAbsent render
        ((if i % 10 = 0 then fillAbsent render s.cache (i + 1) 40 else s.cache).set
          i (some (render i))) (i + 1) 50 :=
  by rw [vmh_update_miss render s i hv]

theorem vmh_update_miss_url {A : Type} (render : ℕ → A) (s : LayerState A)
    (i : ℕ) (hv : s.cache[i]? = some none) :
    (update_frame render s i).url = render i :=
  by rw [vmh_update_miss render s i hv]

theorem vmh_update_miss_prefetch {A : Type} (render : ℕ → A) (s : LayerState A)
    (i : ℕ) (hv : s.cache[i]? = some none) :
    (update_frame render s i).prefetchReqs =
      (s.prefetchReqs ++ (if i % 10 = 0 then [(i + 1, 40)] else [])) ++
        [(i + 1, 50)] :=
  by rw [vmh_update_miss render s i hv]

theorem vmh_update_oob_cache {A : Type} (render : ℕ → A) (s : LayerState A)
    (i : ℕ) (hv : s.cache[i]? = none) :
    (update_frame render s i).cache =
      if i % 10 = 0 then fillAbsent render s.cache (i + 1) 40 else s.cache :=
  by rw [vmh_update_oob render s i hv]

/-- Claim C4: for every valid frame index `i`, after `update_frame(i)`
returns the cache entry at `i` is present and holds the displayed
artifact, and a second `update_frame(i)` serves that stored artifact from
the cache, performing no synchronous reprojection and leaving the entry
untouched. -/
theorem C4_theorem {A : Type} (render : ℕ → A) (s : LayerState A) (i : ℕ)
    (h : i < s.cache.length) :
    ∃ a, (update_frame render s i).cache[i]? = some (some a) ∧
      (update_frame render s i).url = a ∧
      (update_frame render (update_frame render s i) i).url = a ∧
      (update_frame render (update_frame render s i) i).syncRenders =
        (update_frame render s i).syncRenders ∧
      (update_frame render (update_frame render s i) i).cache[i]? =
        some (some a) := by
  have second : ∀ (s' : LayerState A) (a : A), s'.cache[i]? = some (some a) →
      (update_frame render s' i).url = a ∧
      (update_frame render s' i).syncRenders = s'.syncRenders ∧
      (update_frame render s' i).cache[i]? = some (some a) := by
    intro s' a h1
    refine ⟨vmh_update_hit_url render s' i a h1,
      vmh_update_hit_sync render s' i a h1, ?_⟩
    rw [vmh_update_hit_cache render s' i a h1]
    by_cases h10 : i % 10 = 0
    · simp only [if_pos h10]
      exact vmh_fillAbsent_present _ _ _ _ _ _ h1
    · simp only [if_neg h10]
      exact h1
  rcases hv : s.cache[i]? with _ | x
  · rw [List.getElem?_eq_none_iff] at hv
    omega
  · cases x with
    | none =>
      have h1 : (update_frame render s i).cache[i]? = some (some (render i)) := by
        rw [vmh_update_miss_cache render s i hv]
        rw [vmh_fillAbsent_lt _ _ _ _ _ (by omega)]
        apply vmh_getElem?_set_self
        by_cases h10 : i % 10 = 0
        · simp only [if_pos h10]
          rw [vmh_fillAbsent_length]
          exact h
        · simp only [if_neg h10]
          exact h
      obtain ⟨u2, r2, c2⟩ := second _ (render i) h1
      exact ⟨render i, h1, vmh_update_miss_url render s i hv, u2, r2, c2⟩
    | some a =>
      have h1 : (update_frame render s i).cache[i]? = some (some a) := by
        rw [vmh_update_hit_cache render s i a hv]
        by_cases h10 : i % 10 = 0
        · simp only [if_pos h10]
          exact vmh_fillAbsent_present _ _ _ _ _ _ hv
        · simp only [if_neg h10]
          exact hv
      obtain ⟨u2, r2, c2⟩ := second _ a h1
      exact ⟨a, h1, vmh_update_hit_url render s i a hv, u2, r2, c2⟩

/-- Witness for C4 at a concrete one-frame layer whose only cache entry is
absent. -/
theorem C4_witness :
    0 < (⟨0, [none], 0, [], 0⟩ : LayerState ℕ).cache.length ∧
    (∃ a, (update_frame (fun n => n) (⟨0, [none], 0, [], 0⟩ : LayerState ℕ) 0).cache[0]? = some (some a) ∧
      (update_frame (fun n => n) (⟨0, [none], 0, [], 0⟩ : LayerState ℕ) 0).url = a ∧
      (update_frame (fun n => n) (update_frame (fun n => n) (⟨0, [none], 0, [], 0⟩ : LayerState ℕ) 0) 0).url = a ∧
      (update_frame (fun n => n) (update_frame (fun n => n) (⟨0, [none], 0, [], 0⟩ : LayerState ℕ) 0) 0).syncRenders =
        (update_frame (fun n => n) (⟨0, [none], 0, [], 0⟩ : LayerState ℕ) 0).syncRenders ∧
      (update_frame (fun n => n) (update_frame (fun n => n) (⟨0, [none], 0, [], 0⟩ : LayerState ℕ) 0) 0).cache[0]? =
        some (some a)) :=
  ⟨by decide, C4_theorem (fun n => n) ⟨0, [none], 0, [], 0⟩ 0 (by decide)⟩

/-- Claim C5 (as stated) is false: a cache-hitting `update_frame(1)` at a
frame index that is not a multiple of 10 requests no prefetch at all — the
prefetch-request log stays empty even though the call succeeds and serves
the stored artifact 20. -/
theorem C5_counterexample :
    (update_frame (fun n => n) (⟨1, [some 10, some 20], 0, [], 0⟩ : LayerState ℕ) 1).prefetchReqs = [] ∧
    (update_frame (fun n => n) (⟨1, [some 10, some 20], 0, [], 0⟩ : LayerState ℕ) 1).url = 20 := by
  decide

/-- Claim C5 (amended): `update_frame(i)` requests prefetch of the 40
frames after `i` exactly when `i` is a multiple of 10, and additionally of
the 50 frames after `i` exactly when the cache entry at `i` is absent; in
particular, a cache hit at an index that is not a multiple of 10 requests
no prefetch. -/
theorem C5_amended {A : Type} [DecidableEq A] (render : ℕ → A)
    (s : LayerState A) (i : ℕ) (h : i < s.cache.length) :
    (update_frame render s i).prefetchReqs =
      (s.prefetchReqs ++ (if i % 10 = 0 then [(i + 1, 40)] else [])) ++
        (if s.cache[i]? = some none then [(i + 1, 50)] else []) := by
  rcases hv : s.cache[i]? with _ | x
  · rw [List.getElem?_eq_none_iff] at hv
    omega
  · cases x with
    | none =>
      rw [vmh_update_miss_prefetch render s i hv, if_pos rfl]
    | some a =>
      have hne : (some (some a) : Option (Option A)) ≠ some none := by simp
      rw [vmh_update_hit_prefetch render s i a hv, if_neg hne, List.append_nil]

/-- Witness for C5 (amended) at a concrete miss on frame 0 (a multiple of
10): both the 40-frame and the 50-frame prefetch requests are issued. -/
theorem C5_witness :
    0 < (⟨0, [none], 0, [], 0⟩ : LayerState ℕ).cache.length ∧
    (update_frame (fun n => n) (⟨0, [none], 0, [], 0⟩ : LayerState ℕ) 0).prefetchReqs =
      ((([] : List (ℕ × ℕ)) ++ (if 0 % 10 = 0 then [(0 + 1, 40)] else [])) ++
        (if (⟨0, [none], 0, [], 0⟩ : LayerState ℕ).cache[0]? = some none then [(0 + 1, 50)] else [])) :=
  ⟨by decide, C5_amended (fun n => n) ⟨0, [none], 0, [], 0⟩ 0 (by decide)⟩

/-- Claim C6: a present cache entry is never recomputed or overwritten:
`update_frame` only reprojects when the entry at the requested index is
absent, and the `buffer_frames` dispatch skips every already-present
index, so both operations leave every present entry exactly as it is and
an entry transitions from absent to present at most once. -/
theorem C6_theorem {A : Type} (render : ℕ → A) (s : LayerState A)
    (i j start n : ℕ) (a : A) (h : s.cache[j]? = some (some a)) :
    (update_frame render s i).cache[j]? = some (some a) ∧
      (buffer_frames render s start n).cache[j]? = some (some a) := by
  constructor
  · rcases hv : s.cache[i]? with _ | x
    · rw [vmh_update_oob_cache render s i hv]
      by_cases h10 : i % 10 = 0
      · simp only [if_pos h10]
        exact vmh_fillAbsent_present _ _ _ _ _ _ h
      · simp only [if_neg h10]
        exact h
    · cases x with
      | none =>
        rw [vmh_update_miss_cache render s i hv]
        apply vmh_fillAbsent_present
        have hji : j ≠ i := by
          intro hh
          rw [hh, hv] at h
          cases h
        rw [vmh_getElem?_set_ne _ _ _ _ (fun hh => hji hh.symm)]
        by_cases h10 : i % 10 = 0
        · simp only [if_pos h10]
          exact vmh_fillAbsent_present _ _ _ _ _ _ h
        · simp only [if_neg h10]
          exact h
      | some b =>
        rw [vmh_update_hit_cache render s i b hv]
        by_cases h10 : i % 10 = 0
        · simp only [if_pos h10]
          exact vmh_fillAbsent_present _ _ _ _ _ _ h
        · simp only [if_neg h10]
          exact h
  · exact vmh_fillAbsent_present _ _ _ _ _ _ h

/-- Witness for C6: a present entry survives an `update_frame` of its own
index and a `buffer_frames` pass over its index. -/
theorem C6_witness :
    (⟨0, [some 7], 0, [], 0⟩ : LayerState ℕ).cache[0]? = some (some 7) ∧
    ((update_frame (fun n => n) (⟨0, [some 7], 0, [], 0⟩ : LayerState ℕ) 0).cache[0]? = some (some 7) ∧
      (buffer_frames (fun n => n) (⟨0, [some 7], 0, [], 0⟩ : LayerState ℕ) 0 5).cache[0]? = some (some 7)) :=
  ⟨by decide, C6_theorem (fun n => n) ⟨0, [some 7], 0, [], 0⟩ 0 0 0 5 7 (by decide)⟩

/-- Claim C2: the spec requires circle selection to include a sample iff
its haversine distance (Earth radius 6371 km) to the centre is below the
radius, with the concrete expectation that for a centre `(0, 0)` and
radius 111 km a sample 0.5 degrees of latitude away is included and one
1.5 degrees away is excluded.  The code cannot produce any such mask: its
`distance` helper evaluates `2 * asin(sqrt(a), sqrt(1-a))`
(selection.py line 122), passing two arguments to the one-argument
`math.asin`, which raises `TypeError` on every call; a circle query over a
latitude axis containing the spec's own sample points therefore raises
instead of returning a mask. -/
theorem C2_theorem :
    find_selection ⟨Geometry.point (0, 0), 111000⟩ [3/2, 1/2, -1/2, -2] [0] =
      Except.error PyErr.typeError := by
  decide

/-- Claim C9 (as stated) is false: for a selection whose geometry type is
neither `Point` nor `Polygon`, `find_selection` falls off the end of the
function and silently returns `None` — no error is raised, and the caller
`get_selection` builds `np.ma.array(data, mask=None)`, i.e. returns the
layer data with no mask at all. -/
theorem C9_counterexample :
    find_selection ⟨Geometry.other, 5⟩ [1] [1] = Except.ok none ∧
    raster_get_selection (0 : ℕ) (SelInput.one ⟨Geometry.other, 5⟩) [1] [1] =
      Except.ok ⟨0, none⟩ :=
  ⟨rfl, rfl⟩

/-- Claim C9 (amended): for every selection whose geometry type is neither
`Point` nor `Polygon`, the selection engine raises no error and silently
returns no mask (`None`); a single-shape `get_selection` then returns the
layer data unmasked. -/
theorem C9_amended {A : Type} (r : ℚ) (lat long : List ℚ) (frame : A) :
    find_selection ⟨Geometry.other, r⟩ lat long = Except.ok none ∧
    raster_get_selection frame (SelInput.one ⟨Geometry.other, r⟩) lat long =
      Except.ok ⟨frame, none⟩ :=
  ⟨rfl, rfl⟩

/-- Claim C10: `WindLayer.get_selection` returns a pair whose two
components are both masked views of the `u` (eastward) component of the
current frame: the result is unchanged when the `v` component is replaced
by anything else, the two components are equal, and their data is `u`. -/
theorem C10_theorem {A : Type} (u v w : A) (sel : SelInput)
    (lat long : List ℚ) (p : MaskedArray A × MaskedArray A)
    (h : wind_get_selection u v sel lat long = Except.ok p) :
    wind_get_selection u v sel lat long = wind_get_selection u w sel lat long ∧
      p.1 = p.2 ∧ p.1.data = u := by
  refine ⟨rfl, ?_⟩
  unfold wind_get_selection at h
  rcases hm : get_selection_mask sel lat long with e | m <;> rw [hm] at h
  · exact absurd h (by simp [Except.map])
  · have h2 : ((⟨u, m⟩, ⟨u, m⟩) : MaskedArray A × MaskedArray A) = p := by
      simp only [Except.map] at h
      injection h
    rw [← h2]
    exact ⟨rfl, rfl⟩

/-- Witness for C10 on a concrete wind layer: both components are the
masked `u` data. -/
theorem C10_witness :
    wind_get_selection (1 : ℕ) 2 (SelInput.one ⟨Geometry.other, 5⟩) [] [] =
      Except.ok (⟨1, none⟩, ⟨1, none⟩) ∧
    (wind_get_selection (1 : ℕ) 2 (SelInput.one ⟨Geometry.other, 5⟩) [] [] =
      wind_get_selection (1 : ℕ) 3 (SelInput.one ⟨Geometry.other, 5⟩) [] [] ∧
      ((⟨1, none⟩, ⟨1, none⟩) : MaskedArray ℕ × MaskedArray ℕ).1 =
        ((⟨1, none⟩, ⟨1, none⟩) : MaskedArray ℕ × MaskedArray ℕ).2 ∧
      ((⟨1, none⟩, ⟨1, none⟩) : MaskedArray ℕ × MaskedArray ℕ).1.data = 1) :=
  ⟨rfl, C10_theorem 1 2 3 (SelInput.one ⟨Geometry.other, 5⟩) [] [] _ rfl⟩

/-- Well-formedness of a mask over an `R × C` grid: `R` rows, each of
width `C`. -/
abbrev maskWF (R C : ℕ) (m : Mask) : Prop :=
  m.length = R ∧ ∀ (r : ℕ) (row : List Bool), m[r]? = some row → row.length = C

theorem vmh_mget_false_parts (m : Mask) (r c : ℕ) (h : mget m r c = false) :
    ∃ row, m[r]? = some row ∧ row[c]? = some false := by
  unfold mget at h
  rcases hr : m[r]? with _ | row <;> rw [hr] at h
  · simp at h
  · simp only [Option.getD_some] at h
    rcases hc : row[c]? with _ | b <;> rw [hc] at h
    · simp at h
    · have hb : b = false := by simpa using h
      refine ⟨row, rfl, ?_⟩
      rw [hc, hb]

theorem vmh_mget_of_parts (m : Mask) (r c : ℕ) (row : List Bool) (b : Bool)
    (h1 : m[r]? = some row) (h2 : row[c]? = some b) : mget m r c = b := by
  unfold mget
  rw [h1]
  simp only [Option.getD_some]
  rw [h2]
  rfl

theorem vmh_wf_np_full (R C : ℕ) : maskWF R C (np_full R C) := by
  constructor
  · simp [np_full]
  · intro r row hr
    have hrow : row = List.replicate C true :=
      List.eq_of_mem_replicate (List.getElem?_mem hr)
    rw [hrow]
    simp

theorem vmh_msetFalse_wf (R C : ℕ) (m : Mask) (yi xi : ℕ)
    (h : maskWF R C m) : maskWF R C (msetFalse m yi xi) := by
  obtain ⟨hlen, hrow⟩ := h
  constructor
  · unfold msetFalse
    rw [vmh_idxGo_length]
    exact hlen
  · intro r row hr
    unfold msetFalse at hr
    rw [vmh_idxGo_getElem?] at hr
    rcases hm : m[r]? with _ | row0 <;> rw [hm] at hr
    · cases hr
    · simp only [Option.map_some', Nat.zero_add] at hr
      injection hr with hr
      subst hr
      by_cases hy : r = yi
      · rw [if_pos hy, vmh_idxGo_length]
        exact hrow r row0 hm
      · rw [if_neg hy]
        exact hrow r row0 hm

theorem vmh_sliceAssign_wf (R C : ℕ) (m : Mask) (ylo yhi xlo xhi : ℤ)
    (h : maskWF R C m) : maskWF R C (sliceAssignFalse m ylo yhi xlo xhi) := by
  obtain ⟨hlen, hrow⟩ := h
  constructor
  · unfold sliceAssignFalse
    rw [vmh_idxGo_length]
    exact hlen
  · intro r row hr
    unfold sliceAssignFalse at hr
    rw [vmh_idxGo_getElem?] at hr
    rcases hm : m[r]? with _ | row0 <;> rw [hm] at hr
    · cases hr
    · simp only [Option.map_some', Nat.zero_add] at hr
      injection hr with hr
      subst hr
      by_cases hy : sliceNorm m.length ylo ≤ r ∧ r < sliceNorm m.length yhi
      · rw [if_pos hy, vmh_idxGo_length]
        exact hrow r row0 hm
      · rw [if_neg hy]
        exact hrow r row0 hm

theorem vmh_zipAnd_wf (R C : ℕ) (a b : Mask) (ha : maskWF R C a)
    (hb : maskWF R C b) : maskWF R C (zipAnd a b) := by
  constructor
  · unfold zipAnd
    rw [List.length_zipWith, ha.1, hb.1, Nat.min_self]
  · intro r row hr
    unfold zipAnd at hr
    rw [List.getElem?_zipWith] at hr
    rcases h1 : a[r]? with _ | ra <;> simp only [h1] at hr
    · cases hr
    · rcases h2 : b[r]? with _ | rb <;> simp only [h2] at hr
      · cases hr
      · injection hr with hr
        subst hr
        rw [List.length_zipWith, ha.2 r ra h1, hb.2 r rb h2, Nat.min_self]

theorem vmh_zipAnd_false_left (R C : ℕ) (ma mb : Mask) (r c : ℕ)
    (hwa : maskWF R C ma) (hwb : maskWF R C mb) (h : mget ma r c = false) :
    mget (zipAnd ma mb) r c = false := by
  obtain ⟨row, hr, hc⟩ := vmh_mget_false_parts ma r c h
  have hrR : r < R := by
    have := vmh_getElem?_some_lt _ _ _ hr
    rw [hwa.1] at this
    exact this
  have hcC : c < C := by
    have := vmh_getElem?_some_lt _ _ _ hc
    rw [hwa.2 r row hr] at this
    exact this
  have hrb : r < mb.length := by rw [hwb.1]; exact hrR
  have hrb2 : mb[r]? = some mb[r] := List.getElem?_eq_getElem hrb
  have hcb : c < (mb[r]).length := by rw [hwb.2 r _ hrb2]; exact hcC
  have hcb2 : (mb[r])[c]? = some (mb[r])[c] := List.getElem?_eq_getElem hcb
  have h1 : (zipAnd ma mb)[r]? = some (List.zipWith and row mb[r]) := by
    unfold zipAnd
    rw [List.getElem?_zipWith]
    simp only [hr, hrb2]
  have h2 : (List.zipWith and row mb[r])[c]? = some false := by
    rw [List.getElem?_zipWith]
    simp only [hc, hcb2, Bool.false_and]
  exact vmh_mget_of_parts _ _ _ _ _ h1 h2

theorem vmh_zipAnd_false_right (R C : ℕ) (ma mb : Mask) (r c : ℕ)
    (hwa : maskWF R C ma) (hwb : maskWF R C mb) (h : mget mb r c = false) :
    mget (zipAnd ma mb) r c = false := by
  obtain ⟨row, hr, hc⟩ := vmh_mget_false_parts mb r c h
  have hrR : r < R := by
    have := vmh_getElem?_some_lt _ _ _ hr
    rw [hwb.1] at this
    exact this
  have hcC : c < C := by
    have := vmh_getElem?_some_lt _ _ _ hc
    rw [hwb.2 r row hr] at this
    exact this
  have hra : r < ma.length := by rw [hwa.1]; exact hrR
  have hra2 : ma[r]? = some ma[r] := List.getElem?_eq_getElem hra
  have hca : c < (ma[r]).length := by rw [hwa.2 r _ hra2]; exact hcC
  have hca2 : (ma[r])[c]? = some (ma[r])[c] := List.getElem?_eq_getElem hca
  have h1 : (zipAnd ma mb)[r]? = some (List.zipWith and ma[r] row) := by
    unfold zipAnd
    rw [List.getElem?_zipWith]
    simp only [hr, hra2]
  have h2 : (List.zipWith and ma[r] row)[c]? = some false := by
    rw [List.getElem?_zipWith]
    simp only [hc, hca2, Bool.and_false]
  exact vmh_mget_of_parts _ _ _ _ _ h1 h2

theorem vmh_wf_rect (coords : List (ℚ × ℚ)) (lat long : List ℚ) :
    maskWF lat.length long.length (find_selection_rectangle coords lat long) := by
  unfold find_selection_rectangle
  exact vmh_sliceAssign_wf _ _ _ _ _ _ _ (vmh_wf_np_full _ _)

theorem vmh_wf_poly (coords : List (ℚ × ℚ)) (lat long : List ℚ) (m : Mask)
    (h : find_selection_polygon coords lat long = Except.ok m) :
    maskWF lat.length long.length m := by
  unfold find_selection_polygon at h
  refine vmh_foldlM_pres _ (maskWF lat.length long.length) _ ?_ _ _
    (vmh_wf_np_full _ _) h
  intro b y b' hy hstep hP
  refine vmh_foldlM_pres _ (maskWF lat.length long.length) _ ?_ _ _ hP hstep
  intro b2 x b2' hx hstep2 hP2
  rcases hp1 : pyNorm long.length x with _ | xi <;>
    rcases hp2 : pyNorm lat.length y with _ | yi <;>
      simp only [hp1, hp2] at hstep2
  · exact absurd hstep2 (by simp)
  · exact absurd hstep2 (by simp)
  · exact absurd hstep2 (by simp)
  · by_cases hcp : contains_point coords (long.getD xi 0, lat.getD yi 0)
    · rw [if_pos hcp] at hstep2
      injection hstep2 with he
      subst he
      exact vmh_msetFalse_wf _ _ _ _ _ hP2
    · rw [if_neg hcp] at hstep2
      injection hstep2 with he
      subst he
      exact hP2

theorem vmh_wf_circle (center : ℚ × ℚ) (radius : ℚ) (lat long : List ℚ)
    (m : Mask) (h : find_selection_circle center radius lat long = Except.ok m) :
    maskWF lat.length long.length m := by
  unfold find_selection_circle at h
  refine vmh_foldlM_pres _ (maskWF lat.length long.length) _ ?_ _ _
    (vmh_wf_np_full _ _) h
  intro b y b' hy hstep hP
  refine vmh_foldlM_pres _ (maskWF lat.length long.length) _ ?_ _ _ hP hstep
  intro b2 x b2' hx hstep2 hP2
  rcases hp : pyNorm lat.length y with _ | yi <;> simp only [hp] at hstep2
  · exact absurd hstep2 (by simp)
  · exact absurd hstep2 (by simp [distance, Bind.bind, Except.bind])

theorem vmh_wf_find (sel : Selection) (lat long : List ℚ) (m : Mask)
    (h : find_selection sel lat long = Except.ok (some m)) :
    maskWF lat.length long.length m := by
  unfold find_selection at h
  rcases hg : sel.geometry with c0 | rings
  · rw [hg] at h
    dsimp only at h
    rcases hc : find_selection_circle c0 (sel.radius / 1000) lat long with e | mc <;>
      rw [hc] at h
    · exact absurd h (by simp [Except.map])
    · simp only [Except.map] at h
      injection h with h2
      injection h2 with h3
      subst h3
      exact vmh_wf_circle _ _ _ _ _ hc
  · rw [hg] at h
    dsimp only at h
    rcases rings with _ | ⟨ring, rest⟩
    · exact absurd h (by simp)
    · dsimp only at h
      by_cases hrect : is_rectangle ring
      · rw [if_pos hrect] at h
        injection h with h2
        injection h2 with h3
        subst h3
        exact vmh_wf_rect _ _ _
      · rw [if_neg hrect] at h
        rcases hp : find_selection_polygon ring lat long with e | mp <;>
          rw [hp] at h
        · exact absurd h (by simp [Except.map])
        · simp only [Except.map] at h
          injection h with h2
          injection h2 with h3
          subst h3
          exact vmh_wf_poly _ _ _ _ hp
  · rw [hg] at h
    dsimp only at h
    exact absurd h (by simp)

theorem vmh_selfold_none (lat long : List ℚ) (rest : List Selection) (m : Mask)
    (h : List.foldlM (fun acc s => do
        let ms ← find_selection s lat long
        pyAnd acc ms) (none : Option Mask) rest = Except.ok (some m)) :
    False := by
  induction rest with
  | nil =>
    simp only [List.foldlM_nil] at h
    exact absurd h (by simp [pure, Except.pure])
  | cons s' rest ih =>
    simp only [List.foldlM_cons] at h
    rcases hfs : find_selection s' lat long with e | oms
    · simp only [hfs, Bind.bind, Except.bind] at h
      exact Except.noConfusion h
    · simp only [hfs, Bind.bind, Except.bind] at h
      cases oms with
      | none =>
        simp only [pyAnd, Bind.bind, Except.bind] at h
        exact Except.noConfusion h
      | some ms =>
        simp only [pyAnd, Bind.bind, Except.bind] at h
        exact Except.noConfusion h

theorem vmh_selfold_main (lat long : List ℚ) (r c : ℕ) (rest : List Selection) :
    ∀ (ma m : Mask), maskWF lat.length long.length ma →
      List.foldlM (fun acc s => do
        let ms ← find_selection s lat long
        pyAnd acc ms) (some ma) rest = Except.ok (some m) →
      maskWF lat.length long.length m ∧
      (mget ma r c = false → mget m r c = false) ∧
      (∀ s ms, s ∈ rest → find_selection s lat long = Except.ok (some ms) →
        mget ms r c = false → mget m r c = false) := by
  induction rest with
  | nil =>
    intro ma m hwf hfold
    simp only [List.foldlM_nil] at hfold
    have hmm : ma = m := by
      have : (Except.ok (some ma) : Except PyErr (Option Mask)) =
          Except.ok (some m) := hfold
      injection this with h2
      injection h2
    subst hmm
    exact ⟨hwf, fun h => h, fun s ms hmem => absurd hmem (by simp)⟩
  | cons s' rest ih =>
    intro ma m hwf hfold
    simp only [List.foldlM_cons] at hfold
    rcases hfs : find_selection s' lat long with e | oms
    · simp only [hfs, Bind.bind, Except.bind] at hfold
      exact Except.noConfusion hfold
    · simp only [hfs, Bind.bind, Except.bind] at hfold
      cases oms with
      | none =>
        simp only [pyAnd, Bind.bind, Except.bind] at hfold
        exact Except.noConfusion hfold
      | some ms' =>
        simp only [pyAnd, Bind.bind, Except.bind] at hfold
        have hwfs : maskWF lat.length long.length ms' :=
          vmh_wf_find s' lat long ms' hfs
        have hwfz : maskWF lat.length long.length (zipAnd ma ms') :=
          vmh_zipAnd_wf _ _ _ _ hwf hwfs
        obtain ⟨W, MONO, ELEM⟩ := ih (zipAnd ma ms') m hwfz hfold
        refine ⟨W, ?_, ?_⟩
        · intro hma
          exact MONO (vmh_zipAnd_false_left _ _ _ _ r c hwf hwfs hma)
        · intro s ms hmem hs hrc
          rcases List.mem_cons.mp hmem with rfl | hmem2
          · have hms : ms = ms' := by
              rw [hs] at hfs
              injection hfs with h2
              injection h2
            subst hms
            exact MONO (vmh_zipAnd_false_right _ _ _ _ r c hwf hwfs hrc)
          · exact ELEM s ms hmem2 hs hrc

/-- Claim C1 (as stated) is false: `get_selection` combines the masks of
multiple shapes with `&` on the exclusion masks, so a cell is excluded
only when every shape excludes it — the union, not the intersection, of
the inclusions.  Concretely, over the 6×6 integer grid below, the cell at
row 1, column 0 is excluded (`true`) by shape B's individual mask, yet the
combined mask of shapes A and B marks it included (`false`). -/
theorem C1_counterexample :
    Except.map (fun om => Option.map (fun m => mget m 1 0) om)
      (find_selection ⟨Geometry.polygon [[(3, 1), (3, 2), (4, 2), (4, 1), (3, 1)]], 0⟩
        [5, 4, 3, 2, 1, 0] [0, 1, 2, 3, 4, 5]) = Except.ok (some true) ∧
    Except.map (fun om => Option.map (fun m => mget m 1 0) om)
      (get_selection_mask (SelInput.many
        [⟨Geometry.polygon [[(1, 3), (1, 4), (2, 4), (2, 3), (1, 3)]], 0⟩,
         ⟨Geometry.polygon [[(3, 1), (3, 2), (4, 2), (4, 1), (3, 1)]], 0⟩])
        [5, 4, 3, 2, 1, 0] [0, 1, 2, 3, 4, 5]) = Except.ok (some false) := by
  decide

/-- Claim C1 (amended): for a multi-shape query, `get_selection` combines
the individual exclusion masks with logical AND (a cell is included iff it
is inside at least one shape), so the combination is at least as
permissive as any single shape: every cell included by some individual
shape's mask is included in the combined mask. -/
theorem C1_amended (s0 : Selection) (rest : List Selection) (s : Selection)
    (lat long : List ℚ) (m ms : Mask) (r c : ℕ)
    (hmem : s ∈ s0 :: rest)
    (hall : get_selection_mask (SelInput.many (s0 :: rest)) lat long =
      Except.ok (some m))
    (hs : find_selection s lat long = Except.ok (some ms))
    (hrc : mget ms r c = false) :
    mget m r c = false := by
  unfold get_selection_mask at hall
  dsimp only at hall
  rcases hf0 : find_selection s0 lat long with e | om0
  · simp only [hf0, Bind.bind, Except.bind] at hall
    exact Except.noConfusion hall
  · simp only [hf0, Bind.bind, Except.bind] at hall
    cases om0 with
    | none => exact absurd hall (vmh_selfold_none lat long rest m)
    | some m0 =>
      have hwf0 : maskWF lat.length long.length m0 :=
        vmh_wf_find s0 lat long m0 hf0
      obtain ⟨W, MONO, ELEM⟩ := vmh_selfold_main lat long r c rest m0 m hwf0 hall
      rcases List.mem_cons.mp hmem with rfl | hmem2
      · have hms : ms = m0 := by
          rw [hs] at hf0
          injection hf0 with h2
          injection h2
        subst hms
        exact MONO hrc
      · exact ELEM s ms hmem2 hs hrc

/-- Witness for C1 (amended) on the 4×4 grid with the rectangle ring
around `[1,2] × [1,2]` used twice: the combined mask keeps the cell at
row 1, column 0 included. -/
theorem C1_witness :
    (⟨Geometry.polygon [[(1, 1), (1, 2), (2, 2), (2, 1), (1, 1)]], 0⟩ : Selection) ∈
      [(⟨Geometry.polygon [[(1, 1), (1, 2), (2, 2), (2, 1), (1, 1)]], 0⟩ : Selection),
       ⟨Geometry.polygon [[(1, 1), (1, 2), (2, 2), (2, 1), (1, 1)]], 0⟩] ∧
    get_selection_mask (SelInput.many
      [⟨Geometry.polygon [[(1, 1), (1, 2), (2, 2), (2, 1), (1, 1)]], 0⟩,
       ⟨Geometry.polygon [[(1, 1), (1, 2), (2, 2), (2, 1), (1, 1)]], 0⟩])
      [3, 2, 1, 0] [0, 1, 2, 3] =
      Except.ok (some [[true, true, true, true], [false, false, false, true],
        [false, false, false, true], [false, false, false, true]]) ∧
    find_selection ⟨Geometry.polygon [[(1, 1), (1, 2), (2, 2), (2, 1), (1, 1)]], 0⟩
      [3, 2, 1, 0] [0, 1, 2, 3] =
      Except.ok (some [[true, true, true, true], [false, false, false, true],
        [false, false, false, true], [false, false, false, true]]) ∧
    mget [[true, true, true, true], [false, false, false, true],
      [false, false, false, true], [false, false, false, true]] 1 0 = false ∧
    mget [[true, true, true, true], [false, false, false, true],
      [false, false, false, true], [false, false, false, true]] 1 0 = false :=
  ⟨by decide, by decide, by decide, by decide,
    C1_amended ⟨Geometry.polygon [[(1, 1), (1, 2), (2, 2), (2, 1), (1, 1)]], 0⟩
      [⟨Geometry.polygon [[(1, 1), (1, 2), (2, 2), (2, 1), (1, 1)]], 0⟩]
      ⟨Geometry.polygon [[(1, 1), (1, 2), (2, 2), (2, 1), (1, 1)]], 0⟩
      [3, 2, 1, 0] [0, 1, 2, 3]
      [[true, true, true, true], [false, false, false, true],
        [false, false, false, true], [false, false, false, true]]
      [[true, true, true, true], [false, false, false, true],
        [false, false, false, true], [false, false, false, true]]
      1 0 (by decide) (by decide) (by decide) (by decide)⟩

theorem vmh_nonNan_eq (l : List PyFloat)
    (h : ∀ x ∈ l, x ≠ PyFloat.inf ∧ x ≠ PyFloat.ninf) :
    l.filter (fun v => !(isNan v)) = (finiteQs l).map PyFloat.finite := by
  induction l with
  | nil => rfl
  | cons x xs ih =>
    have hx := h x (List.mem_cons_self x xs)
    have hxs : ∀ y ∈ xs, y ≠ PyFloat.inf ∧ y ≠ PyFloat.ninf :=
      fun y hy => h y (List.mem_cons_of_mem x hy)
    cases x with
    | finite q =>
      have h1 : finiteQs (PyFloat.finite q :: xs) = q :: finiteQs xs := rfl
      have h2 : (PyFloat.finite q :: xs).filter (fun v => !(isNan v)) =
          PyFloat.finite q :: xs.filter (fun v => !(isNan v)) := rfl
      rw [h1, h2, ih hxs]
      rfl
    | nan =>
      have h1 : finiteQs (PyFloat.nan :: xs) = finiteQs xs := rfl
      have h2 : (PyFloat.nan :: xs).filter (fun v => !(isNan v)) =
          xs.filter (fun v => !(isNan v)) := rfl
      rw [h1, h2, ih hxs]
    | inf => exact absurd rfl hx.1
    | ninf => exact absurd rfl hx.2

theorem vmh_foldl_pymin (qs : List ℚ) :
    ∀ x : ℚ, (qs.map PyFloat.finite).foldl pymin (PyFloat.finite x) =
      PyFloat.finite (qs.foldl min x) := by
  induction qs with
  | nil => intro x; rfl
  | cons q qs ih =>
    intro x
    simp only [List.map, List.foldl, pymin]
    exact ih (min x q)

theorem vmh_foldl_pymax (qs : List ℚ) :
    ∀ x : ℚ, (qs.map PyFloat.finite).foldl pymax (PyFloat.finite x) =
      PyFloat.finite (qs.foldl max x) := by
  induction qs with
  | nil => intro x; rfl
  | cons q qs ih =>
    intro x
    simp only [List.map, List.foldl, pymax]
    exact ih (max x q)

theorem vmh_nanmin_eq (l : List PyFloat) (q0 : ℚ) (qs : List ℚ)
    (h : ∀ x ∈ l, x ≠ PyFloat.inf ∧ x ≠ PyFloat.ninf)
    (hq : finiteQs l = q0 :: qs) :
    nanmin l = PyFloat.finite (qs.foldl min q0) := by
  unfold nanmin
  rw [vmh_nonNan_eq l h, hq]
  simp only [List.map]
  exact vmh_foldl_pymin qs q0

theorem vmh_nanmax_eq (l : List PyFloat) (q0 : ℚ) (qs : List ℚ)
    (h : ∀ x ∈ l, x ≠ PyFloat.inf ∧ x ≠ PyFloat.ninf)
    (hq : finiteQs l = q0 :: qs) :
    nanmax l = PyFloat.finite (qs.foldl max q0) := by
  unfold nanmax
  rw [vmh_nonNan_eq l h, hq]
  simp only [List.map]
  exact vmh_foldl_pymax qs q0

theorem vmh_shift_noInf (l : List PyFloat) (a : ℚ)
    (h : ∀ x ∈ l, x ≠ PyFloat.inf ∧ x ≠ PyFloat.ninf) :
    ∀ y ∈ l.map (fun v => pySub v (PyFloat.finite a)),
      y ≠ PyFloat.inf ∧ y ≠ PyFloat.ninf := by
  intro y hy
  obtain ⟨x, hx, rfl⟩ := List.mem_map.mp hy
  have hx2 := h x hx
  cases x with
  | finite q => simp [pySub]
  | nan => simp [pySub]
  | inf => exact absurd rfl hx2.1
  | ninf => exact absurd rfl hx2.2

theorem vmh_finiteQs_shift (l : List PyFloat) (a : ℚ)
    (h : ∀ x ∈ l, x ≠ PyFloat.inf ∧ x ≠ PyFloat.ninf) :
    finiteQs (l.map (fun v => pySub v (PyFloat.finite a))) =
      (finiteQs l).map (fun q => q - a) := by
  induction l with
  | nil => rfl
  | cons x xs ih =>
    have hx := h x (List.mem_cons_self x xs)
    have hxs : ∀ y ∈ xs, y ≠ PyFloat.inf ∧ y ≠ PyFloat.ninf :=
      fun y hy => h y (List.mem_cons_of_mem x hy)
    cases x with
    | finite q =>
      have h1 : (PyFloat.finite q :: xs).map (fun v => pySub v (PyFloat.finite a)) =
          PyFloat.finite (q - a) :: xs.map (fun v => pySub v (PyFloat.finite a)) := rfl
      have h2 : finiteQs (PyFloat.finite (q - a) ::
          xs.map (fun v => pySub v (PyFloat.finite a))) =
          (q - a) :: finiteQs (xs.map (fun v => pySub v (PyFloat.finite a))) := rfl
      rw [h1, h2, ih hxs]
      rfl
    | nan =>
      have h1 : (PyFloat.nan :: xs).map (fun v => pySub v (PyFloat.finite a)) =
          PyFloat.nan :: xs.map (fun v => pySub v (PyFloat.finite a)) := rfl
      have h2 : finiteQs (PyFloat.nan ::
          xs.map (fun v => pySub v (PyFloat.finite a))) =
          finiteQs (xs.map (fun v => pySub v (PyFloat.finite a))) := rfl
      have h3 : finiteQs (PyFloat.nan :: xs) = finiteQs xs := rfl
      rw [h1, h2, ih hxs, h3]
    | inf => exact absurd rfl hx.1
    | ninf => exact absurd rfl hx.2

theorem vmh_foldl_max_sub (qs : List ℚ) :
    ∀ x a : ℚ, (qs.map (fun q => q - a)).foldl max (x - a) =
      (qs.foldl max x) - a := by
  induction qs with
  | nil => intro x a; rfl
  | cons q qs ih =>
    intro x a
    simp only [List.map, List.foldl]
    rw [max_sub_sub_right, ih]

/-- Claim C7 (as stated) is false for slices containing infinities: the
code's `np.nanmin`/`np.nanmax` ignore NaN but not infinities, so for the
slice `[0, 1, inf]` the code divides the shifted values by `inf`, giving
`0` at index 1 (and the `inf` position maps to 0), whereas the claim's
"(value − min)/(max − min) over finite values only" requires
`(1 − 0)/(1 − 0) = 1` there. -/
theorem C7_counterexample :
    (normalize_slice [PyFloat.finite 0, PyFloat.finite 1, PyFloat.inf])[1]? =
      some (PyFloat.finite 0) ∧
    PyFloat.finite ((1 - 0) / (1 - 0)) ≠ PyFloat.finite 0 := by
  decide

/-- Claim C7 (amended): for a reprojected slice containing no infinities
(only finite values and NaN), with finite minimum `a` and maximum `b` and
`a < b`, the normalization maps every finite value `q` to
`(q − a)/(b − a)` and every NaN position to 0 — in particular
`[1, 2, 3, NaN]` normalizes to `[0, 1/2, 1, 0]`. -/
theorem C7_amended (dst : List PyFloat) (a b q : ℚ) (i : ℕ)
    (hinf : ∀ x ∈ dst, x ≠ PyFloat.inf ∧ x ≠ PyFloat.ninf)
    (hmin : qminFold (finiteQs dst) = some a)
    (hmax : qmaxFold (finiteQs dst) = some b)
    (hab : a < b) :
    (dst[i]? = some (PyFloat.finite q) →
      (normalize_slice dst)[i]? = some (PyFloat.finite ((q - a) / (b - a)))) ∧
    (dst[i]? = some PyFloat.nan →
      (normalize_slice dst)[i]? = some (PyFloat.finite 0)) := by
  rcases hfq : finiteQs dst with _ | ⟨q0, qs⟩
  · rw [hfq] at hmin
    exact absurd hmin (by simp [qminFold])
  · rw [hfq] at hmin hmax
    unfold qminFold at hmin
    unfold qmaxFold at hmax
    injection hmin with ha
    injection hmax with hb
    have hmin2 : nanmin dst = PyFloat.finite a := by
      rw [vmh_nanmin_eq dst q0 qs hinf hfq, ha]
    have hshiftinf := vmh_shift_noInf dst a hinf
    have hfq2 : finiteQs (dst.map (fun v => pySub v (PyFloat.finite a))) =
        (q0 - a) :: qs.map (fun x => x - a) := by
      rw [vmh_finiteQs_shift dst a hinf, hfq]
      rfl
    have hmax2 : nanmax (dst.map (fun v => pySub v (PyFloat.finite a))) =
        PyFloat.finite (b - a) := by
      rw [vmh_nanmax_eq _ (q0 - a) (qs.map (fun x => x - a)) hshiftinf hfq2,
        vmh_foldl_max_sub, hb]
    have hba : b - a ≠ 0 := sub_ne_zero.mpr (ne_of_gt hab)
    constructor
    · intro hv
      unfold normalize_slice
      dsimp only
      rw [hmin2, hmax2, List.getElem?_zipWith, List.getElem?_map,
        List.getElem?_map, hv]
      simp only [Option.map_some', pySub, pyDiv, if_neg hba, isFinite]
      simp
    · intro hv
      unfold normalize_slice
      dsimp only
      rw [hmin2, hmax2, List.getElem?_zipWith, List.getElem?_map,
        List.getElem?_map, hv]
      simp only [Option.map_some', pySub, pyDiv, isFinite]
      simp

/-- Witness for C7 (amended) on the spec's own example slice
`[1, 2, 3, NaN]`: index 1 normalizes to `(2 − 1)/(3 − 1) = 1/2`. -/
theorem C7_witness :
    ((∀ x ∈ [PyFloat.finite 1, PyFloat.finite 2, PyFloat.finite 3, PyFloat.nan],
        x ≠ PyFloat.inf ∧ x ≠ PyFloat.ninf) ∧
      qminFold (finiteQs [PyFloat.finite 1, PyFloat.finite 2, PyFloat.finite 3,
        PyFloat.nan]) = some 1 ∧
      qmaxFold (finiteQs [PyFloat.finite 1, PyFloat.finite 2, PyFloat.finite 3,
        PyFloat.nan]) = some 3 ∧
      (1 : ℚ) < 3) ∧
    (([PyFloat.finite 1, PyFloat.finite 2, PyFloat.finite 3,
        PyFloat.nan] : List PyFloat)[1]? = some (PyFloat.finite 2) →
      (normalize_slice [PyFloat.finite 1, PyFloat.finite 2, PyFloat.finite 3,
        PyFloat.nan])[1]? = some (PyFloat.finite ((2 - 1) / (3 - 1)))) ∧
    (([PyFloat.finite 1, PyFloat.finite 2, PyFloat.finite 3,
        PyFloat.nan] : List PyFloat)[1]? = some PyFloat.nan →
      (normalize_slice [PyFloat.finite 1, PyFloat.finite 2, PyFloat.finite 3,
        PyFloat.nan])[1]? = some (PyFloat.finite 0)) :=
  ⟨⟨by decide, by decide, by decide, by decide⟩,
    C7_amended [PyFloat.finite 1, PyFloat.finite 2, PyFloat.finite 3,
      PyFloat.nan] 1 3 2 1 (by decide) (by decide) (by decide) (by decide)⟩

theorem vmh_pyNorm_some (len : ℕ) (y : ℤ) (r : ℕ) (hy : 0 ≤ y)
    (h : pyNorm len y = some r) : (r : ℤ) = y ∧ r < len := by
  unfold pyNorm at h
  rw [if_neg (not_lt.mpr hy)] at h
  by_cases hc : 0 ≤ y ∧ y < (len : ℤ)
  · rw [if_pos hc] at h
    injection h with h2
    subst h2
    omega
  · rw [if_neg hc] at h
    cases h

theorem vmh_sliceNorm_nonneg (len : ℕ) (i : ℤ) (h0 : 0 ≤ i)
    (hle : i ≤ (len : ℤ)) : sliceNorm len i = i.toNat := by
  unfold sliceNorm
  rw [if_neg (not_lt.mpr h0)]
  have : i.toNat ≤ len := by omega
  exact min_eq_left this

theorem vmh_mget_sliceAssign_full (R C : ℕ) (ylo yhi xlo xhi : ℤ) (r c : ℕ)
    (hr : r < R) (hc : c < C)
    (hry : sliceNorm R ylo ≤ r ∧ r < sliceNorm R yhi)
    (hcx : sliceNorm C xlo ≤ c ∧ c < sliceNorm C xhi) :
    mget (sliceAssignFalse (np_full R C) ylo yhi xlo xhi) r c = false := by
  have hlen : (np_full R C).length = R := by simp [np_full]
  have hrow : (np_full R C)[r]? = some (List.replicate C true) := by
    unfold np_full
    rw [List.getElem?_replicate, if_pos hr]
  unfold sliceAssignFalse mget
  rw [vmh_idxGo_getElem?, hrow]
  simp only [Option.map_some', Option.getD_some, Nat.zero_add]
  rw [hlen, if_pos hry, vmh_idxGo_getElem?, List.getElem?_replicate, if_pos hc]
  simp only [Option.map_some', Nat.zero_add, List.length_replicate]
  rw [if_pos hcx]
  rfl

theorem vmh_poly_inner_false (coords : List (ℚ × ℚ)) (lat long : List ℚ)
    (y : ℤ) (m2 : Mask) (x : ℤ) (m2' : Mask)
    (hs : (match pyNorm long.length x, pyNorm lat.length y with
      | some xi, some yi =>
        if contains_point coords (long.getD xi 0, lat.getD yi 0) then
          Except.ok (msetFalse m2 yi xi)
        else Except.ok m2
      | _, _ => Except.error PyErr.indexError) = Except.ok m2')
    (r c : ℕ) (hF : mget m2' r c = false) :
    mget m2 r c = false ∨
      (pyNorm lat.length y = some r ∧ pyNorm long.length x = some c) := by
  rcases hp1 : pyNorm long.length x with _ | xi
  · simp only [hp1] at hs
    exact Except.noConfusion hs
  · rcases hp2 : pyNorm lat.length y with _ | yi
    · simp only [hp1, hp2] at hs
      exact Except.noConfusion hs
    · simp only [hp1, hp2] at hs
      by_cases hcp : contains_point coords (long.getD xi 0, lat.getD yi 0)
      · rw [if_pos hcp] at hs
        injection hs with hs2
        subst hs2
        rcases vmh_mget_msetFalse m2 yi xi r c hF with hold | ⟨hry, hcx⟩
        · exact Or.inl hold
        · refine Or.inr ⟨?_, ?_⟩
          · rw [hry]
          · rw [hcx]
      · rw [if_neg hcp] at hs
        injection hs with hs2
        subst hs2
        exact Or.inl hF

/-- Claim C3 (as stated) is false: the rectangle fast-path sets its whole
one-index-padded search window to included by slice assignment, while the
polygon path tests each sample point.  For the rectangle ring around
`[1,2] × [1,2]` over the 4×4 integer grid, the cell at row 3, column 0
(sample point `(0, 0)`, which lies outside the rectangle) is included by
the fast path but excluded by the polygon path, so the two masks differ
even though `is_rectangle` accepts the ring. -/
theorem C3_counterexample :
    is_rectangle [(1, 1), (1, 2), (2, 2), (2, 1), (1, 1)] = true ∧
    find_selection_polygon [(1, 1), (1, 2), (2, 2), (2, 1), (1, 1)]
      [3, 2, 1, 0] [0, 1, 2, 3] =
      Except.ok [[true, true, true, true], [true, true, true, true],
        [true, false, true, true], [true, true, true, true]] ∧
    mget [[true, true, true, true], [true, true, true, true],
      [true, false, true, true], [true, true, true, true]] 3 0 = true ∧
    mget (find_selection_rectangle [(1, 1), (1, 2), (2, 2), (2, 1), (1, 1)]
      [3, 2, 1, 0] [0, 1, 2, 3]) 3 0 = false := by
  decide

/-- Claim C3 (amended): whenever the binary-searched index window lies
within the coordinate axes, the rectangle fast-path is at least as
permissive as the polygon path on the same ring: every cell the polygon
path includes, the fast path also includes (the fast path additionally
includes the padding cells of the window, which is what the
counterexample exhibits). -/
theorem C3_amended (coords : List (ℚ × ℚ)) (lat long : List ℚ) (mp : Mask)
    (r c : ℕ)
    (h1 : 0 ≤ sel_x_lo coords long)
    (h2 : sel_x_hi coords long ≤ (long.length : ℤ))
    (h3 : 0 ≤ sel_y_lo coords lat)
    (h4 : sel_y_hi coords lat ≤ (lat.length : ℤ))
    (hok : find_selection_polygon coords lat long = Except.ok mp)
    (hrc : mget mp r c = false) :
    mget (find_selection_rectangle coords lat long) r c = false := by
  unfold find_selection_polygon at hok
  have hstep_out : ∀ (m : Mask) (y : ℤ) (m' : Mask),
      (List.foldlM (fun mask x =>
        match pyNorm long.length x, pyNorm lat.length y with
        | some xi, some yi =>
          if contains_point coords (long.getD xi 0, lat.getD yi 0) then
            Except.ok (msetFalse mask yi xi)
          else Except.ok mask
        | _, _ => Except.error PyErr.indexError)
        m (intRange (sel_x_lo coords long) (sel_x_hi coords long))) =
        Except.ok m' →
      ∀ r' c', mget m' r' c' = false → mget m r' c' = false ∨
        (∃ x ∈ intRange (sel_x_lo coords long) (sel_x_hi coords long),
          pyNorm lat.length y = some r' ∧ pyNorm long.length x = some c') := by
    intro m y m' hfold r' c' hF
    exact vmh_foldlM_false _
      (fun x r'' c'' =>
        pyNorm lat.length y = some r'' ∧ pyNorm long.length x = some c'')
      (fun m2 x m2' hs r'' c'' hF2 =>
        vmh_poly_inner_false coords lat long y m2 x m2' hs r'' c'' hF2)
      _ m m' hfold r' c' hF
  have H := vmh_foldlM_false _
    (fun y r' c' =>
      ∃ x ∈ intRange (sel_x_lo coords long) (sel_x_hi coords long),
        pyNorm lat.length y = some r' ∧ pyNorm long.length x = some c')
    hstep_out _ _ _ hok r c hrc
  rcases H with Hinit | ⟨y, hy, x, hx, hpy, hpx⟩
  · rw [vmh_mget_np_full lat.length long.length r c] at Hinit
    cases Hinit
  · obtain ⟨hylo, hyhi⟩ := (vmh_intRange_mem _ _ y).mp hy
    obtain ⟨hxlo, hxhi⟩ := (vmh_intRange_mem _ _ x).mp hx
    have hy0 : 0 ≤ y := le_trans h3 hylo
    have hx0 : 0 ≤ x := le_trans h1 hxlo
    obtain ⟨hyr, hyR⟩ := vmh_pyNorm_some lat.length y r hy0 hpy
    obtain ⟨hxc, hxC⟩ := vmh_pyNorm_some long.length x c hx0 hpx
    have hsy_lo : sliceNorm lat.length (sel_y_lo coords lat) =
        (sel_y_lo coords lat).toNat :=
      vmh_sliceNorm_nonneg _ _ h3 (by omega)
    have hsy_hi : sliceNorm lat.length (sel_y_hi coords lat) =
        (sel_y_hi coords lat).toNat :=
      vmh_sliceNorm_nonneg _ _ (by omega) h4
    have hsx_lo : sliceNorm long.length (sel_x_lo coords long) =
        (sel_x_lo coords long).toNat :=
      vmh_sliceNorm_nonneg _ _ h1 (by omega)
    have hsx_hi : sliceNorm long.length (sel_x_hi coords long) =
        (sel_x_hi coords long).toNat :=
      vmh_sliceNorm_nonneg _ _ (by omega) h2
    unfold find_selection_rectangle
    apply vmh_mget_sliceAssign_full
    · exact hyR
    · exact hxC
    · rw [hsy_lo, hsy_hi]
      omega
    · rw [hsx_lo, hsx_hi]
      omega

/-- Witness for C3 (amended) on the rectangle ring around `[1,2] × [1,2]`
over the 4×4 grid: the polygon path includes the cell at row 2, column 1,
and so does the fast path. -/
theorem C3_witness :
    (0 ≤ sel_x_lo [(1, 1), (1, 2), (2, 2), (2, 1), (1, 1)] [0, 1, 2, 3] ∧
      sel_x_hi [(1, 1), (1, 2), (2, 2), (2, 1), (1, 1)] [0, 1, 2, 3] ≤ 4 ∧
      0 ≤ sel_y_lo [(1, 1), (1, 2), (2, 2), (2, 1), (1, 1)] [3, 2, 1, 0] ∧
      sel_y_hi [(1, 1), (1, 2), (2, 2), (2, 1), (1, 1)] [3, 2, 1, 0] ≤ 4 ∧
      find_selection_polygon [(1, 1), (1, 2), (2, 2), (2, 1), (1, 1)]
        [3, 2, 1, 0] [0, 1, 2, 3] =
        Except.ok [[true, true, true, true], [true, true, true, true],
          [true, false, true, true], [true, true, true, true]] ∧
      mget [[true, true, true, true], [true, true, true, true],
        [true, false, true, true], [true, true, true, true]] 2 1 = false) ∧
    mget (find_selection_rectangle [(1, 1), (1, 2), (2, 2), (2, 1), (1, 1)]
      [3, 2, 1, 0] [0, 1, 2, 3]) 2 1 = false :=
  ⟨⟨by decide, by decide, by decide, by decide, by decide, by decide⟩,
    C3_amended [(1, 1), (1, 2), (2, 2), (2, 1), (1, 1)] [3, 2, 1, 0]
      [0, 1, 2, 3]
      [[true, true, true, true], [true, true, true, true],
        [true, false, true, true], [true, true, true, true]] 2 1
      (by decide) (by decide) (by decide) (by decide) (by decide) (by decide)⟩

theorem vmh_calc_arrow_thirdPoint (u v long lat scale : ℝ) (autoscale : Bool) :
    (calc_arrow u v long lat autoscale scale)[2]? =
      some (long + ((if autoscale then Real.sqrt |u * v| * scale else scale) / 2) *
          Real.cos (arctan2 v u) +
          ((if autoscale then Real.sqrt |u * v| * scale else scale) * (1 / 10)) *
          Real.cos (arctan2 v u + (np_radians 270 - np_radians 50)),
        lat + ((if autoscale then Real.sqrt |u * v| * scale else scale) / 2) *
          Real.sin (arctan2 v u) +
          ((if autoscale then Real.sqrt |u * v| * scale else scale) * (1 / 10)) *
          Real.sin (arctan2 v u + (np_radians 270 - np_radians 50))) := rfl

theorem vmh_arctan2_zero_one : arctan2 0 1 = 0 := by
  unfold arctan2
  have h1 : (⟨1, 0⟩ : ℂ) = 1 := by
    apply Complex.ext <;> simp
  rw [h1, Complex.arg_one]

theorem vmh_cos_140_lt_130 :
    Real.cos (140 * Real.pi / 180) < Real.cos (130 * Real.pi / 180) := by
  have hpi := Real.pi_pos
  apply Real.cos_lt_cos_of_nonneg_of_le_pi
  · positivity
  · nlinarith
  · nlinarith

/-- Claim C8 (as stated) is false in the barb angle: for the sample
`(u, v) = (1, 0)` at the origin with fixed scale 2, the third point of the
arrow (the first barb) is neither of the two points the claim prescribes
at +50° or −50° from the reverse shaft direction — the code attaches the
barbs via offsets `radians(270) ∓ radians(50)`, i.e. at ±40° from the
reverse direction. -/
theorem C8_counterexample :
    (calc_arrow 1 0 0 0 false 2)[2]? ≠
      some (0 + (2 / 2) * Real.cos (arctan2 0 1) +
          (2 * (1 / 10)) * Real.cos (arctan2 0 1 + Real.pi + np_radians 50),
        0 + (2 / 2) * Real.sin (arctan2 0 1) +
          (2 * (1 / 10)) * Real.sin (arctan2 0 1 + Real.pi + np_radians 50)) ∧
    (calc_arrow 1 0 0 0 false 2)[2]? ≠
      some (0 + (2 / 2) * Real.cos (arctan2 0 1) +
          (2 * (1 / 10)) * Real.cos (arctan2 0 1 + Real.pi - np_radians 50),
        0 + (2 / 2) * Real.sin (arctan2 0 1) +
          (2 * (1 / 10)) * Real.sin (arctan2 0 1 + Real.pi - np_radians 50)) := by
  have hL : Real.cos (arctan2 0 1 + (np_radians 270 - np_radians 50)) =
      Real.cos (140 * Real.pi / 180) := by
    have harg : arctan2 0 1 + (np_radians 270 - np_radians 50) =
        2 * Real.pi - 140 * Real.pi / 180 := by
      rw [vmh_arctan2_zero_one]
      unfold np_radians
      ring
    rw [harg, Real.cos_two_pi_sub]
  have hRp : Real.cos (arctan2 0 1 + Real.pi + np_radians 50) =
      Real.cos (130 * Real.pi / 180) := by
    have harg : arctan2 0 1 + Real.pi + np_radians 50 =
        2 * Real.pi - 130 * Real.pi / 180 := by
      rw [vmh_arctan2_zero_one]
      unfold np_radians
      ring
    rw [harg, Real.cos_two_pi_sub]
  have hRm : Real.cos (arctan2 0 1 + Real.pi - np_radians 50) =
      Real.cos (130 * Real.pi / 180) := by
    have harg : arctan2 0 1 + Real.pi - np_radians 50 =
        130 * Real.pi / 180 := by
      rw [vmh_arctan2_zero_one]
      unfold np_radians
      ring
    rw [harg]
  constructor
  · intro h
    rw [vmh_calc_arrow_thirdPoint, Option.some.injEq, Prod.mk.injEq] at h
    obtain ⟨h1, _⟩ := h
    simp only [Bool.false_eq_true, if_false] at h1
    rw [hL, hRp] at h1
    have : Real.cos (140 * Real.pi / 180) = Real.cos (130 * Real.pi / 180) := by
      linarith
    exact absurd this (ne_of_lt vmh_cos_140_lt_130)
  · intro h
    rw [vmh_calc_arrow_thirdPoint, Option.some.injEq, Prod.mk.injEq] at h
    obtain ⟨h1, _⟩ := h
    simp only [Bool.false_eq_true, if_false] at h1
    rw [hL, hRm] at h1
    have : Real.cos (140 * Real.pi / 180) = Real.cos (130 * Real.pi / 180) := by
      linarith
    exact absurd this (ne_of_lt vmh_cos_140_lt_130)

/-- Claim C8 (amended): the arrow is the 5-point line-string
`[begin, end, head_l, end, head_r]` with the shaft running from
`center − length/2·(cos θ, sin θ)` to `center + length/2·(cos θ, sin θ)`
for `θ = atan2(v, u)` and `length = scale·sqrt(|u·v|)` when autoscaling
(else the fixed scale), and with the two barbs attached at the tip at
±40° (not ±50°) from the reverse shaft direction, each of length 10% of
the arrow length. -/
theorem C8_amended (u v long lat scale : ℝ) (autoscale : Bool) :
    calc_arrow u v long lat autoscale scale =
      (let θ := arctan2 v u
       let L := if autoscale then Real.sqrt |u * v| * scale else scale
       let en := (long + (L / 2) * Real.cos θ, lat + (L / 2) * Real.sin θ)
       [(long - (L / 2) * Real.cos θ, lat - (L / 2) * Real.sin θ), en,
        (en.1 + (L * (1 / 10)) * Real.cos (θ + Real.pi + np_radians 40),
         en.2 + (L * (1 / 10)) * Real.sin (θ + Real.pi + np_radians 40)), en,
        (en.1 + (L * (1 / 10)) * Real.cos (θ + Real.pi - np_radians 40),
         en.2 + (L * (1 / 10)) * Real.sin (θ + Real.pi - np_radians 40))]) := by
  unfold calc_arrow
  dsimp only
  have harg1 : arctan2 v u + (np_radians 270 - np_radians 50) =
      arctan2 v u + Real.pi + np_radians 40 := by
    unfold np_radians
    ring
  have harg2 : arctan2 v u + (np_radians 270 + np_radians 50) =
      (arctan2 v u + Real.pi - np_radians 40) + Real.pi := by
    unfold np_radians
    ring
  rw [harg1, harg2, Real.cos_add_pi, Real.sin_add_pi]
  simp only [List.cons.injEq, Prod.mk.injEq, and_true, true_and, and_self]
  constructor <;> ring
